import Mathlib

/-!
Shallow embedding of the comze version-reconciliation engine.

The definitions below are translated from the TypeScript sources:
  * `src/utils/version.ts` — constraint parsing, stability classification,
    version normalization, diff classification, constraint reformatting;
  * `src/utils/php.ts` — Composer constraint normalization and the PHP
    runtime-compatibility checker;
  * `src/fetcher.ts` — the version-selection pipeline of `fetchPackage`
    (modelled here without the network/cache layer, which only supplies the
    version list).

JavaScript strings are modelled as Lean `String` (a list of characters);
the few regular expressions used by the source are modelled by explicit
character scans whose semantics are described next to each definition.
The external `semver` npm library (coerce / major / minor / patch / lt /
gte / validRange / satisfies) is modelled from its documented behaviour;
see the comments on `coerce` and `validRangeModel`.
-/

/-- Whitespace test used for JS `trim` / `\s` (the ASCII cases that matter here). -/
def isWsChar (c : Char) : Bool := c = ' ' || c = '\t' || c = '\n' || c = '\r'

def listTrimLeft (s : List Char) : List Char := s.dropWhile isWsChar

def listTrimRight (s : List Char) : List Char := (s.reverse.dropWhile isWsChar).reverse

def listTrim (s : List Char) : List Char := listTrimRight (listTrimLeft s)

/-- JS `String.prototype.trim`. -/
def trimS (s : String) : String := ⟨listTrim s.data⟩

/-- JS `String.prototype.toLowerCase` (ASCII). -/
def toLowerS (s : String) : String := ⟨s.data.map Char.toLower⟩

/-- JS `String.prototype.slice(n)` for a nonnegative index. -/
def dropS (n : Nat) (s : String) : String := ⟨s.data.drop n⟩

/-- Does the first list occur as a prefix of the second? -/
def isPrefixL : List Char → List Char → Bool
  | [], _ => true
  | _ :: _, [] => false
  | a :: as, b :: bs => a = b && isPrefixL as bs

/-- Does `needle` occur as a contiguous substring? (JS `includes`.) -/
def containsL : List Char → List Char → Bool
  | [], needle => needle.isEmpty
  | s@(_ :: rest), needle => isPrefixL needle s || containsL rest needle

/-- JS `String.prototype.startsWith`. -/
def startsWithS (s pre : String) : Bool := isPrefixL pre.data s.data

/-- JS `String.prototype.endsWith`. -/
def endsWithS (s suf : String) : Bool := isPrefixL suf.data.reverse s.data.reverse

/-- JS `String.prototype.includes`. -/
def containsS (s sub : String) : Bool := containsL s.data sub.data

/-- Fuel-driven splitter; fuel at least `s.length + 1` makes it total on `s`.
Models JS `String.prototype.split(sep)` for a non-empty literal separator:
leftmost, non-overlapping matches. -/
def splitOnFuel (sep : List Char) : Nat → List Char → List Char → List (List Char)
  | 0, s, acc => [acc.reverse ++ s]
  | _ + 1, [], acc => [acc.reverse]
  | n + 1, c :: rest, acc =>
    if !sep.isEmpty && isPrefixL sep (c :: rest) then
      acc.reverse :: splitOnFuel sep n (List.drop sep.length (c :: rest)) []
    else splitOnFuel sep n rest (c :: acc)

def splitOnL (s sep : List Char) : List (List Char) := splitOnFuel sep (s.length + 1) s []

/-- JS `s.split(sep)` for a literal separator. -/
def splitOnS (s sep : String) : List String := (splitOnL s.data sep.data).map (fun l => ⟨l⟩)

/-- Fuel-driven global replacement; fuel at least `s.length + 1` makes it total.
Models JS `s.replace(/pat/g, rep)` for a literal non-empty pattern. -/
def replaceAllFuel (pat rep : List Char) : Nat → List Char → List Char
  | 0, s => s
  | _ + 1, [] => []
  | n + 1, c :: rest =>
    if !pat.isEmpty && isPrefixL pat (c :: rest) then
      rep ++ replaceAllFuel pat rep n (List.drop pat.length (c :: rest))
    else c :: replaceAllFuel pat rep n rest

def replaceAllS (s pat rep : String) : String :=
  ⟨replaceAllFuel pat.data rep.data (s.data.length + 1) s.data⟩

/-- Maximal leading digit run and the remainder. -/
def takeDigits : List Char → List Char × List Char
  | [] => ([], [])
  | c :: rest =>
    if c.isDigit then
      let (d, r) := takeDigits rest
      (c :: d, r)
    else ([], c :: rest)

def digitsToNat (ds : List Char) : Nat := ds.foldl (fun acc c => 10 * acc + (c.toNat - 48)) 0

/-- A concrete `major.minor.patch` triple (the only shape `semver.coerce` produces). -/
structure SemV where
  major : Nat
  minor : Nat
  patch : Nat
deriving DecidableEq, Repr

/-- JS `Number.MAX_SAFE_INTEGER`; semver rejects numeric components above it. -/
def MAX_SAFE_INTEGER : Nat := 9007199254740991

/-- A matched numeric component is accepted by semver's strict parse iff it has
no leading zero and fits below `MAX_SAFE_INTEGER`. -/
def validNumComponent (d : List Char) : Bool :=
  !d.isEmpty && (d.length == 1 || !(d.headD '0' == '0')) &&
    decide (digitsToNat d ≤ MAX_SAFE_INTEGER)

/-- Groups matched at a position that starts with a digit run of length ≤ 16:
major digits, then optional `.minor` and `.patch` digit runs (a run longer than
16 digits makes that optional group — and any later group — fail, as in the
`semver.coerce` regex). -/
def coerceMatchAt (s : List Char) : List Char × Option (List Char) × Option (List Char) :=
  let (d1, r1) := takeDigits s
  match r1 with
  | '.' :: t =>
    let (d2, r2) := takeDigits t
    if d2.isEmpty || decide (d2.length > 16) then (d1, none, none)
    else
      match r2 with
      | '.' :: t2 =>
        let (d3, _) := takeDigits t2
        if d3.isEmpty || decide (d3.length > 16) then (d1, some d2, none)
        else (d1, some d2, some d3)
      | _ => (d1, some d2, none)
  | _ => (d1, none, none)

/-- Left-to-right scan for the first digit run that starts at a non-digit
boundary and has length ≤ 16 (runs longer than 16 digits cannot anchor a
match of the coerce regex and are skipped whole). -/
def coerceScan (prevDigit : Bool) :
    List Char → Option (List Char × Option (List Char) × Option (List Char))
  | [] => none
  | c :: rest =>
    if !prevDigit && c.isDigit then
      let (d1, _) := takeDigits (c :: rest)
      if decide (d1.length ≤ 16) then some (coerceMatchAt (c :: rest))
      else coerceScan true rest
    else coerceScan c.isDigit rest

/-- Model of `semver.coerce`: find the first `major[.minor[.patch]]` digit
groups in the string (each run 1–16 digits, anchored at non-digit boundaries),
default missing parts to 0, then validate the resulting components with
semver's strict numeric rules (no leading zeros, ≤ MAX_SAFE_INTEGER); any
invalid component makes the whole coercion fail, as `semver.parse` does. -/
def coerce (s : String) : Option SemV :=
  match coerceScan false s.data with
  | none => none
  | some (d1, d2, d3) =>
    if validNumComponent d1 && (d2.map validNumComponent).getD true &&
        (d3.map validNumComponent).getD true then
      some ⟨digitsToNat d1, (d2.map digitsToNat).getD 0, (d3.map digitsToNat).getD 0⟩
    else none

/-- Render a `SemV` the way `semver` prints a coerced version (`"M.m.p"`). -/
def renderSemV (v : SemV) : String := s!"{v.major}.{v.minor}.{v.patch}"

/-- Strict lexicographic comparison on version triples (`semver.lt` restricted to
prerelease-free versions, the only versions compared by this program). -/
def semvLt (a b : SemV) : Bool :=
  a.major < b.major ||
    (a.major == b.major && (a.minor < b.minor || (a.minor == b.minor && a.patch < b.patch)))

/-- `semver.gte` on prerelease-free versions. -/
def semvGe (a b : SemV) : Bool := !semvLt a b

/-- Composer stability tiers (src/types.ts). -/
inductive Stability
  | dev | alpha | beta | RC | stable
deriving DecidableEq, Repr

/-- `STABILITY_ORDER` from src/types.ts: dev(0) < alpha(1) < beta(2) < RC(3) < stable(4). -/
def STABILITY_ORDER : Stability → Nat
  | .dev => 0
  | .alpha => 1
  | .beta => 2
  | .RC => 3
  | .stable => 4

/-- `getVersionStability` (src/utils/version.ts): case-insensitive substring
tests in strict priority order dev > alpha > beta > RC, else stable. -/
def getVersionStability (version : String) : Stability :=
  let lower := toLowerS version
  if startsWithS lower "dev-" || endsWithS lower "-dev" || containsS lower "@dev" then .dev
  else if containsS lower "alpha" || containsS lower "@alpha" then .alpha
  else if containsS lower "beta" || containsS lower "@beta" then .beta
  else if containsS lower "-rc" || containsS lower "@rc" then .RC
  else .stable

/-- `hasDevSuffix` (src/utils/version.ts): case-insensitive substring search for
the eight development/pre-release markers. -/
def hasDevSuffix (version : String) : Bool :=
  let lower := toLowerS version
  containsS lower "-dev" || containsS lower "alpha" || containsS lower "beta" ||
    containsS lower "-rc" || containsS lower "@dev" || containsS lower "@alpha" ||
    containsS lower "@beta" || containsS lower "@rc"

/-- Strip a single leading `v`/`V` (JS `replace(/^v/i, '')`). -/
def stripLeadingV (s : String) : String :=
  match s.data with
  | c :: rest => if c = 'v' || c = 'V' then ⟨rest⟩ else s
  | [] => s

/-- Strip one trailing `@dev|@alpha|@beta|@rc|@stable` annotation, case-insensitively
(JS `replace(/@(dev|alpha|beta|rc|stable)$/i, '')`). -/
def stripStabilityTag (s : String) : String :=
  let lower := toLowerS s
  if endsWithS lower "@dev" then ⟨s.data.take (s.data.length - 4)⟩
  else if endsWithS lower "@alpha" then ⟨s.data.take (s.data.length - 6)⟩
  else if endsWithS lower "@beta" then ⟨s.data.take (s.data.length - 5)⟩
  else if endsWithS lower "@rc" then ⟨s.data.take (s.data.length - 3)⟩
  else if endsWithS lower "@stable" then ⟨s.data.take (s.data.length - 7)⟩
  else s

/-- `normalizeVersionString` (src/utils/version.ts): trim, strip a leading `v`,
strip a trailing stability annotation. -/
def normalizeVersionString (version : String) : String :=
  stripStabilityTag (stripLeadingV (trimS version))

/-- Character class `[><!=]` of the range-operator regexes. -/
def isOpChar (c : Char) : Bool := c = '>' || c = '<' || c = '!' || c = '='

/-- Character class `[\w.]` (word characters and dot). -/
def isWordDotChar (c : Char) : Bool := c.isAlphanum || c = '_' || c = '.'

/-- Consume zero or more `.digits` groups (the greedy `(?:\.\d+)*`); fuel at
least the length of the input makes it total. Returns consumed text and rest. -/
def dotDigitsFuel : Nat → List Char → List Char × List Char
  | 0, s => ([], s)
  | n + 1, s =>
    match s with
    | '.' :: c :: rest =>
      if c.isDigit then
        let (d, r) := takeDigits (c :: rest)
        let (more, r2) := dotDigitsFuel n r
        ('.' :: (d ++ more), r2)
      else ([], s)
    | _ => ([], s)

/-- Try the regex `([><!=]+)\s*(\d+(?:\.\d+)*(?:-[\w.]+)?)` anchored at a position
starting with an operator character; returns the matched group 2 if any. -/
def tryOpVersionAt (s : List Char) : Option (List Char) :=
  let afterOps := s.dropWhile isOpChar
  let afterWs := afterOps.dropWhile isWsChar
  let (d, r) := takeDigits afterWs
  if d.isEmpty then none
  else
    let (dots, r2) := dotDigitsFuel r.length r
    let preSuf :=
      match r2 with
      | '-' :: c :: _ =>
        if isWordDotChar c then '-' :: (r2.drop 1).takeWhile isWordDotChar else []
      | _ => []
    some (d ++ dots ++ preSuf)

/-- Leftmost match of the version-extraction regex used by the range branch of
`parseConstraint`; advancing one character on failure reproduces the regex
engine's scan (a shorter operator run at the same start can never succeed). -/
def rangeVersionScan : List Char → Option (List Char)
  | [] => none
  | c :: rest =>
    if isOpChar c then
      match tryOpVersionAt (c :: rest) with
      | some v => some v
      | none => rangeVersionScan rest
    else rangeVersionScan rest

/-- The version string the range branch of `parseConstraint` works with:
group 2 of the first `([><!=]+)\s*(\d+(?:\.\d+)*(?:-[\w.]+)?)` match, or the
input with every `[><!=]` character removed (the `?? original.replace(...)`
fallback). -/
def rangeVersionOf (original : String) : String :=
  match rangeVersionScan original.data with
  | some v => ⟨v⟩
  | none => ⟨original.data.filter (fun c => !isOpChar c)⟩

/-- `/\.$/` removal: drop a single trailing dot. -/
def stripTrailingDot (s : String) : String :=
  if endsWithS s "." then ⟨s.data.take (s.data.length - 1)⟩ else s

/-- `ConstraintType` from src/utils/version.ts. -/
inductive ConstraintType
  | exact | range | hyphen | wildcard | tilde | caret | dev
deriving DecidableEq, Repr

/-- `ParsedConstraint` from src/utils/version.ts; the source field `prefix`
is called `pfx` here. -/
structure ParsedConstraint where
  type : ConstraintType
  pfx : String
  baseVersion : String
  original : String
  isDev : Bool
deriving DecidableEq, Repr

/-- The detection chain of `parseConstraint` (src/utils/version.ts), applied
to the already-trimmed input `original`, branch for branch. -/
def parseConstraintCore (original : String) : ParsedConstraint :=
  if containsS original " as " then
    let parts := (splitOnS original " as ").map trimS
    { type := .dev, pfx := "", baseVersion := parts.getD 1 "", original := original, isDev := true }
  else if startsWithS original "dev-" then
    { type := .dev, pfx := "dev-", baseVersion := dropS 4 original, original := original,
      isDev := true }
  else if endsWithS original "-dev" || endsWithS original ".x-dev" then
    { type := .dev, pfx := "", baseVersion := original, original := original, isDev := true }
  else if startsWithS original "^" then
    { type := .caret, pfx := "^", baseVersion := normalizeVersionString (dropS 1 original),
      original := original, isDev := hasDevSuffix (dropS 1 original) }
  else if startsWithS original "~" then
    { type := .tilde, pfx := "~", baseVersion := normalizeVersionString (dropS 1 original),
      original := original, isDev := hasDevSuffix (dropS 1 original) }
  else if containsS original "*" then
    { type := .wildcard, pfx := "",
      baseVersion := stripTrailingDot ((splitOnS original "*").getD 0 ""),
      original := original, isDev := false }
  else if containsS original " - " then
    { type := .hyphen, pfx := "",
      baseVersion := normalizeVersionString (trimS ((splitOnS original " - ").getD 0 "")),
      original := original, isDev := false }
  else if !(original.data.takeWhile isOpChar).isEmpty then
    { type := .range, pfx := ⟨original.data.takeWhile isOpChar⟩,
      baseVersion := normalizeVersionString (rangeVersionOf original),
      original := original, isDev := hasDevSuffix (rangeVersionOf original) }
  else
    { type := .exact, pfx := "", baseVersion := normalizeVersionString original,
      original := original, isDev := hasDevSuffix original }

/-- `parseConstraint` (src/utils/version.ts): trim the raw input
(`const original = constraint.trim()`), then run the detection chain. -/
def parseConstraint (constraint : String) : ParsedConstraint :=
  parseConstraintCore (trimS constraint)

/-- `normalizeVersion` (src/utils/version.ts) at the level of version triples:
dev constraints without an inline alias are incomparable; otherwise the parsed
base version is coerced. (`normalizeVersion` itself renders the triple.) -/
def normalizeVersionSem (version : String) : Option SemV :=
  let parsed := parseConstraint version
  if parsed.type = ConstraintType.dev ∧ ¬ containsS version " as " then none
  else coerce parsed.baseVersion

/-- `normalizeVersion` (src/utils/version.ts): the coerced version string, or
`null`. `semver.major/minor/patch` applied to its output read back exactly the
components of `normalizeVersionSem`. -/
def normalizeVersion (version : String) : Option String :=
  (normalizeVersionSem version).map renderSemV

/-- The three non-absent diff severities. -/
inductive DiffKind
  | major | minor | patch
deriving DecidableEq, Repr

/-- `getDiffType` (src/utils/version.ts). `semver.major/minor/patch` cannot
throw here because `normalizeVersion` only returns well-formed `M.m.p`
strings, so the source's `try/catch` is dead. -/
def getDiffType (currentVersion latestVersion : String) : Option DiffKind :=
  match normalizeVersionSem currentVersion, normalizeVersionSem latestVersion with
  | some current, some latest =>
    if latest.major > current.major then some .major
    else if latest.minor > current.minor then some .minor
    else if latest.patch > current.patch then some .patch
    else none
  | _, _ => none

/-- `/^\d+\.\*$/`: a bare `<major>.*` pattern. -/
def bareMajorStar (s : String) : Bool :=
  let (d, r) := takeDigits s.data
  !d.isEmpty && r == ['.', '*']

/-- `formatNewVersion` (src/utils/version.ts); `stripLeadingV newVersion` is
the source's `cleaned`. -/
def formatNewVersion (originalConstraint newVersion : String) : String :=
  match (parseConstraint originalConstraint).type with
  | .dev => originalConstraint
  | .wildcard =>
    match coerce (stripLeadingV newVersion) with
    | some c =>
      if bareMajorStar originalConstraint then s!"{c.major}.*"
      else s!"{c.major}.{c.minor}.*"
    | none => originalConstraint
  | .hyphen =>
    trimS ((splitOnS originalConstraint " - ").getD 0 "") ++ " - " ++ stripLeadingV newVersion
  | .range => "^" ++ stripLeadingV newVersion
  | _ => (parseConstraint originalConstraint).pfx ++ stripLeadingV newVersion

/-- If a `/\s*\|\|\s*/` match starts at this position, return the rest of the
string after the whole match (leading whitespace, `||`, trailing whitespace). -/
def orSepSplitAt (s : List Char) : Option (List Char) :=
  let ws := s.dropWhile isWsChar
  if isPrefixL ['|', '|'] ws then some ((ws.drop 2).dropWhile isWsChar) else none

/-- Global `replace(/\s*\|\|\s*/g, ' || ')`; fuel at least `length + 1`. -/
def collapseOrFuel : Nat → List Char → List Char
  | 0, s => s
  | _ + 1, [] => []
  | n + 1, c :: rest =>
    match orSepSplitAt (c :: rest) with
    | some r => ' ' :: '|' :: '|' :: ' ' :: collapseOrFuel n r
    | none => c :: collapseOrFuel n rest

/-- `split(/\s*\|\|\s*/)`; fuel at least `length + 1`. -/
def splitOrFuel : Nat → List Char → List Char → List (List Char)
  | 0, s, acc => [acc.reverse ++ s]
  | _ + 1, [], acc => [acc.reverse]
  | n + 1, c :: rest, acc =>
    match orSepSplitAt (c :: rest) with
    | some r => acc.reverse :: splitOrFuel n r []
    | none => splitOrFuel n rest (c :: acc)

def splitOrParts (s : String) : List String :=
  (splitOrFuel (s.data.length + 1) s.data []).map (fun l => ⟨l⟩)

/-- Global `replace(/,\s*/g, ' ')`. -/
def commaSpaceFuel : Nat → List Char → List Char
  | 0, s => s
  | _ + 1, [] => []
  | n + 1, c :: rest =>
    if c = ',' then ' ' :: commaSpaceFuel n (rest.dropWhile isWsChar)
    else c :: commaSpaceFuel n rest

/-- If `/@(dev|alpha|beta|rc|stable)/i` matches at this position, the number of
characters of the match (alternatives tried in regex order). -/
def tagAt (s : List Char) : Option Nat :=
  match s with
  | '@' :: rest =>
    let lower := rest.map Char.toLower
    if isPrefixL "dev".data lower then some 4
    else if isPrefixL "alpha".data lower then some 6
    else if isPrefixL "beta".data lower then some 5
    else if isPrefixL "rc".data lower then some 3
    else if isPrefixL "stable".data lower then some 7
    else none
  | _ => none

/-- Global case-insensitive removal `replace(/@(dev|alpha|beta|rc|stable)/gi, '')`. -/
def stripTagsFuel : Nat → List Char → List Char
  | 0, s => s
  | _ + 1, [] => []
  | n + 1, c :: rest =>
    match tagAt (c :: rest) with
    | some k => stripTagsFuel n (List.drop k (c :: rest))
    | none => c :: stripTagsFuel n rest

/-- `normalizeComposerConstraint` (src/utils/php.ts): canonicalize OR separators,
turn commas into spaces, strip `@stability` annotations; `*`/`ext-` become `*`. -/
def normalizeComposerConstraint (constraint : String) : String :=
  if constraint = "" then "*"
  else
    let n1 := trimS constraint
    let n2 := replaceAllS n1 "||" "<<<OR>>>"
    let n3 := replaceAllS n2 "|" "<<<OR>>>"
    let n4 := replaceAllS n3 "<<<OR>>>" " || "
    let n5 : String := ⟨collapseOrFuel (n4.data.length + 1) n4.data⟩
    let n6 : String := ⟨commaSpaceFuel (n5.data.length + 1) n5.data⟩
    let n7 : String := ⟨stripTagsFuel (n6.data.length + 1) n6.data⟩
    if n7 = "*" || startsWithS n7 "ext-" then "*" else n7

/-- `extractMinVersion` (src/utils/php.ts) at the level of version triples:
coerce each OR alternative and keep the smallest. -/
def extractMinVersionSem (constraint : String) : Option SemV :=
  let normalized := normalizeComposerConstraint constraint
  if normalized = "*" then none
  else
    (splitOrParts normalized).foldl
      (fun minV part =>
        match coerce (trimS part) with
        | some c =>
          match minV with
          | none => some c
          | some m => if semvLt c m then some c else some m
        | none => minV)
      none

/-- `extractMinVersion` (src/utils/php.ts): the rendered minimum, or `null`. -/
def extractMinVersion (constraint : String) : Option String :=
  (extractMinVersionSem constraint).map renderSemV

/-- If `/<(=?)\s*(\d+(?:\.\d+)*)/` matches at this position, group 2. -/
def ltBoundAt (s : List Char) : Option (List Char) :=
  match s with
  | '<' :: rest =>
    let rest2 := match rest with | '=' :: r => r | _ => rest
    let afterWs := rest2.dropWhile isWsChar
    let (d, r) := takeDigits afterWs
    if d.isEmpty then none
    else
      let (dots, _) := dotDigitsFuel r.length r
      some (d ++ dots)
  | _ => none

/-- Leftmost match of the explicit-upper-bound regex. -/
def ltBoundScan : List Char → Option (List Char)
  | [] => none
  | c :: rest =>
    match ltBoundAt (c :: rest) with
    | some v => some v
    | none => ltBoundScan rest

/-- Leftmost match of `/\^(\d+)/`, giving the caret's major component.
(JS `parseInt` loses precision beyond 2^53; such majors are outside the
modelled input range.) -/
def caretMajorScan : List Char → Option Nat
  | [] => none
  | '^' :: rest =>
    let (d, _) := takeDigits rest
    if d.isEmpty then caretMajorScan rest else some (digitsToNat d)
  | _ :: rest => caretMajorScan rest

/-- `extractMaxVersion` (src/utils/php.ts) at the level of version triples:
an explicit `<`/`<=` bound is coerced (a failed coercion yields `null`, not the
caret fallback); otherwise a caret implies `nextMajor.0.0`. -/
def extractMaxVersionSem (constraint : String) : Option SemV :=
  let normalized := normalizeComposerConstraint constraint
  if normalized = "*" then none
  else
    match ltBoundScan normalized.data with
    | some verChars => coerce ⟨verChars⟩
    | none =>
      match caretMajorScan normalized.data with
      | some maj => some ⟨maj + 1, 0, 0⟩
      | none => none

/-- `extractMaxVersion` (src/utils/php.ts): the rendered maximum, or `null`. -/
def extractMaxVersion (constraint : String) : Option String :=
  (extractMaxVersionSem constraint).map renderSemV

/-- Comparator operators of a desugared semver range. -/
inductive CompOp
  | ltOp | leOp | gtOp | geOp | eqOp
deriving DecidableEq, Repr

/-- One desugared semver comparator. Because the probed version (always an
output of `coerce`) never carries a prerelease part, a comparator's prerelease
identifiers matter only through their presence: at equal triples a
prerelease-free version compares strictly above one with a prerelease.
`hasPre` records that presence. -/
structure Comparator where
  op : CompOp
  ver : SemV
  hasPre : Bool
deriving DecidableEq, Repr

/-- Characters allowed in prerelease/build identifiers (`[0-9A-Za-z-]`). -/
def isIdChar (c : Char) : Bool := c.isAlphanum || c = '-'

/-- Dot-separated identifier list validity; with `numCheck`, all-digit
identifiers must not have a leading zero (semver's strict prerelease rule). -/
def validIds (s : List Char) (numCheck : Bool) : Bool :=
  (splitOnL s ['.']).all (fun p =>
    !p.isEmpty && p.all isIdChar &&
      (!numCheck || !(p.all Char.isDigit) || p.length == 1 || !(p.headD '0' == '0')))

/-- An x-range version pattern: up to three components, each numeric or a
wildcard (`x`/`X`/`*`; missing components count as wildcards, as in semver's
`isX`), plus presence of a prerelease part. -/
structure XRange where
  m1 : Option Nat
  m2 : Option Nat
  m3 : Option Nat
  hasPre : Bool
deriving DecidableEq, Repr

/-- One x-range identifier: wildcard or a strict numeric component. -/
def parseXId : List Char → Option (Option Nat × List Char)
  | '*' :: r => some (none, r)
  | 'x' :: r => some (none, r)
  | 'X' :: r => some (none, r)
  | s =>
    let (d, r) := takeDigits s
    if d.isEmpty then none
    else if validNumComponent d then some (some (digitsToNat d), r) else none

/-- Parse a bare x-range version pattern (semver `XRANGEPLAIN`): optional
leading `v`/`=`/space noise, 1–3 dot-separated identifiers, and — only when all
three are present — optional prerelease and build parts. -/
def parseXRangeToken (t0 : List Char) : Option XRange :=
  let t := t0.dropWhile (fun c => c = 'v' || c = '=' || isWsChar c)
  match parseXId t with
  | none => none
  | some (i1, r1) =>
    match r1 with
    | [] => some ⟨i1, none, none, false⟩
    | '.' :: t2 =>
      match parseXId t2 with
      | none => none
      | some (i2, r2) =>
        match r2 with
        | [] => some ⟨i1, i2, none, false⟩
        | '.' :: t3 =>
          match parseXId t3 with
          | none => none
          | some (i3, r3) =>
            match r3 with
            | [] => some ⟨i1, i2, i3, false⟩
            | '-' :: preRest =>
              let preChars := preRest.takeWhile (fun c => !(c = '+'))
              let buildRest := preRest.drop preChars.length
              if validIds preChars true &&
                  (match buildRest with
                   | [] => true
                   | '+' :: b => validIds b false
                   | _ => false) then
                some ⟨i1, i2, i3, true⟩
              else none
            | '+' :: b => if validIds b false then some ⟨i1, i2, i3, false⟩ else none
            | _ => none
        | _ => none
    | _ => none

/-- semver `replaceXRange`: desugar an operator applied to an x-range. -/
def xrangeDesugar (op : Option CompOp) (xr : XRange) : List Comparator :=
  match xr.m1 with
  | none =>
    match op with
    | some .gtOp => [⟨.ltOp, ⟨0, 0, 0⟩, true⟩]
    | some .ltOp => [⟨.ltOp, ⟨0, 0, 0⟩, true⟩]
    | _ => []
  | some M =>
    match xr.m2 with
    | none =>
      match op with
      | none | some .eqOp => [⟨.geOp, ⟨M, 0, 0⟩, false⟩, ⟨.ltOp, ⟨M + 1, 0, 0⟩, true⟩]
      | some .gtOp => [⟨.geOp, ⟨M + 1, 0, 0⟩, false⟩]
      | some .geOp => [⟨.geOp, ⟨M, 0, 0⟩, false⟩]
      | some .ltOp => [⟨.ltOp, ⟨M, 0, 0⟩, true⟩]
      | some .leOp => [⟨.ltOp, ⟨M + 1, 0, 0⟩, true⟩]
    | some m =>
      match xr.m3 with
      | none =>
        match op with
        | none | some .eqOp => [⟨.geOp, ⟨M, m, 0⟩, false⟩, ⟨.ltOp, ⟨M, m + 1, 0⟩, true⟩]
        | some .gtOp => [⟨.geOp, ⟨M, m + 1, 0⟩, false⟩]
        | some .geOp => [⟨.geOp, ⟨M, m, 0⟩, false⟩]
        | some .ltOp => [⟨.ltOp, ⟨M, m, 0⟩, true⟩]
        | some .leOp => [⟨.ltOp, ⟨M, m + 1, 0⟩, true⟩]
      | some p => [⟨(op.getD .eqOp), ⟨M, m, p⟩, xr.hasPre⟩]

/-- semver `replaceCaret`. -/
def caretDesugar (xr : XRange) : List Comparator :=
  match xr.m1 with
  | none => []
  | some M =>
    match xr.m2 with
    | none => [⟨.geOp, ⟨M, 0, 0⟩, false⟩, ⟨.ltOp, ⟨M + 1, 0, 0⟩, true⟩]
    | some m =>
      match xr.m3 with
      | none =>
        if M == 0 then [⟨.geOp, ⟨0, m, 0⟩, false⟩, ⟨.ltOp, ⟨0, m + 1, 0⟩, true⟩]
        else [⟨.geOp, ⟨M, m, 0⟩, false⟩, ⟨.ltOp, ⟨M + 1, 0, 0⟩, true⟩]
      | some p =>
        if 0 < M then [⟨.geOp, ⟨M, m, p⟩, xr.hasPre⟩, ⟨.ltOp, ⟨M + 1, 0, 0⟩, true⟩]
        else if 0 < m then [⟨.geOp, ⟨0, m, p⟩, xr.hasPre⟩, ⟨.ltOp, ⟨0, m + 1, 0⟩, true⟩]
        else [⟨.geOp, ⟨0, 0, p⟩, xr.hasPre⟩, ⟨.ltOp, ⟨0, 0, p + 1⟩, true⟩]

/-- semver `replaceTilde`. -/
def tildeDesugar (xr : XRange) : List Comparator :=
  match xr.m1 with
  | none => []
  | some M =>
    match xr.m2 with
    | none => [⟨.geOp, ⟨M, 0, 0⟩, false⟩, ⟨.ltOp, ⟨M + 1, 0, 0⟩, true⟩]
    | some m =>
      match xr.m3 with
      | none => [⟨.geOp, ⟨M, m, 0⟩, false⟩, ⟨.ltOp, ⟨M, m + 1, 0⟩, true⟩]
      | some p => [⟨.geOp, ⟨M, m, p⟩, xr.hasPre⟩, ⟨.ltOp, ⟨M, m + 1, 0⟩, true⟩]

/-- Lower side of a semver hyphen range. -/
def hyphenLo (xr : XRange) : List Comparator :=
  match xr.m1 with
  | none => []
  | some M =>
    match xr.m2 with
    | none => [⟨.geOp, ⟨M, 0, 0⟩, false⟩]
    | some m =>
      match xr.m3 with
      | none => [⟨.geOp, ⟨M, m, 0⟩, false⟩]
      | some p => [⟨.geOp, ⟨M, m, p⟩, xr.hasPre⟩]

/-- Upper side of a semver hyphen range. -/
def hyphenHi (xr : XRange) : List Comparator :=
  match xr.m1 with
  | none => []
  | some M =>
    match xr.m2 with
    | none => [⟨.ltOp, ⟨M + 1, 0, 0⟩, true⟩]
    | some m =>
      match xr.m3 with
      | none => [⟨.ltOp, ⟨M, m + 1, 0⟩, true⟩]
      | some p => [⟨.leOp, ⟨M, m, p⟩, xr.hasPre⟩]

/-- Parse one whitespace-delimited range token into comparators. -/
def parseRangeToken (t : List Char) : Option (List Comparator) :=
  match t with
  | '^' :: rest => (parseXRangeToken rest).map caretDesugar
  | '~' :: '>' :: rest => (parseXRangeToken rest).map tildeDesugar
  | '~' :: rest => (parseXRangeToken rest).map tildeDesugar
  | '>' :: '=' :: rest => (parseXRangeToken rest).map (xrangeDesugar (some .geOp))
  | '<' :: '=' :: rest => (parseXRangeToken rest).map (xrangeDesugar (some .leOp))
  | '>' :: rest => (parseXRangeToken rest).map (xrangeDesugar (some .gtOp))
  | '<' :: rest => (parseXRangeToken rest).map (xrangeDesugar (some .ltOp))
  | '=' :: rest => (parseXRangeToken rest).map (xrangeDesugar (some .eqOp))
  | t' => (parseXRangeToken t').map (xrangeDesugar none)

/-- Split into whitespace-delimited tokens; fuel at least `length + 1`. -/
def wsTokensFuel : Nat → List Char → List (List Char)
  | 0, _ => []
  | _ + 1, [] => []
  | n + 1, c :: rest =>
    if isWsChar c then wsTokensFuel n rest
    else
      (c :: rest).takeWhile (fun x => !isWsChar x) ::
        wsTokensFuel n ((c :: rest).dropWhile (fun x => !isWsChar x))

/-- Is this token exactly an operator (candidate for semver's comparator/tilde/
caret whitespace trimming)? -/
def isOpToken (t : List Char) : Bool :=
  t = ['>'] || t = ['<'] || t = ['='] || t = ['>', '='] || t = ['<', '='] ||
    t = ['~'] || t = ['^'] || t = ['~', '>']

def isVerStart (c : Char) : Bool := c.isDigit || c = 'v' || c = 'x' || c = 'X' || c = '*'

/-- Model of semver's `COMPARATORTRIM`/`TILDETRIM`/`CARETTRIM` rewrites: an
operator token followed by whitespace and a version is glued back together. -/
def mergeOps : List (List Char) → List (List Char)
  | [] => []
  | [t] => [t]
  | t :: next :: rest2 =>
    if isOpToken t && (match next.head? with | some c => isVerStart c | none => false) then
      (t ++ next) :: mergeOps rest2
    else t :: mergeOps (next :: rest2)

/-- Model of `semver.validRange` composed with range parsing: `none` when the
range is invalid, otherwise the desugared comparator list (`[]` = match-all).
A whole-string `lo - hi` hyphen range is recognized first, as in semver's
anchored `HYPHENRANGE`; otherwise each token must parse as a comparator. -/
def validRangeModel (s : String) : Option (List Comparator) :=
  let toks := mergeOps (wsTokensFuel (s.data.length + 1) (listTrim s.data))
  match toks with
  | [] => some []
  | [a, d, b] =>
    if d = ['-'] then
      match parseXRangeToken a, parseXRangeToken b with
      | some lo, some hi => some (hyphenLo lo ++ hyphenHi hi)
      | _, _ => none
    else if toks.any (fun t => t = ['-']) then none
    else (toks.mapM parseRangeToken).map List.flatten
  | _ =>
    if toks.any (fun t => t = ['-']) then none
    else (toks.mapM parseRangeToken).map List.flatten

/-- Three-way comparison of prerelease-free triples. -/
inductive Ord3
  | ltO | eqO | gtO
deriving DecidableEq, Repr

def cmpSemV (a b : SemV) : Ord3 :=
  if semvLt a b then .ltO else if a = b then .eqO else .gtO

/-- Does the prerelease-free version `p` satisfy one comparator? At equal
triples, `p` (a release) is strictly greater than a prerelease bound. -/
def compSat (p : SemV) (c : Comparator) : Bool :=
  match cmpSemV p c.ver, c.op with
  | .ltO, .ltOp => true
  | .ltO, .leOp => true
  | .eqO, .leOp => !c.hasPre
  | .eqO, .eqOp => !c.hasPre
  | .eqO, .geOp => true
  | .eqO, .gtOp => c.hasPre
  | .gtO, .gtOp => true
  | .gtO, .geOp => true
  | _, _ => false

/-- Model of `semver.satisfies` for a prerelease-free probe version. -/
def satisfiesModel (p : SemV) (cs : List Comparator) : Bool := cs.all (compSat p)

/-- One iteration of the compatibility loop of `checkPhpCompatibility`
(src/utils/php.ts) over a single OR alternative: skip when the consumer's
minimum already reaches the alternative's implied maximum; else try direct
range containment; else the caret same-major or unbounded lower-bound
heuristics. -/
def phpPartSatisfies (projectMin : SemV) (part : String) : Bool :=
  let partMax := extractMaxVersionSem part
  if (match partMax with | some m => semvGe projectMin m | none => false) then false
  else
    (match validRangeModel (trimS part) with
     | some comps => satisfiesModel projectMin comps
     | none => false) ||
    (match extractMinVersionSem part with
     | some partMin =>
       if startsWithS (trimS part) "^" then
         projectMin.major == partMin.major && semvGe projectMin partMin
       else
         semvGe projectMin partMin && partMax.isNone
     | none => false)

/-- `ConstraintCheckResult` from src/utils/php.ts. -/
structure ConstraintCheckResult where
  satisfied : Bool
  reason : Option String := none
deriving DecidableEq, Repr

/-- `checkPhpCompatibility` (src/utils/php.ts). -/
def checkPhpCompatibility (projectPhp packagePhp : String) : ConstraintCheckResult :=
  if packagePhp = "" ∨ packagePhp = "*" then { satisfied := true }
  else if projectPhp = "" then { satisfied := true }
  else
    match extractMinVersionSem projectPhp with
    | none => { satisfied := true }
    | some projectMin =>
      let packageNorm := normalizeComposerConstraint packagePhp
      let packageParts := (splitOrParts packageNorm).filter (fun p => !(trimS p == ""))
      if packageParts.any (phpPartSatisfies projectMin) then { satisfied := true }
      else { satisfied := false, reason := some ("requires php " ++ packagePhp) }

/-- The `abandoned` field of a registry entry: absent/false, `true`, or a
replacement package name (src/fetcher.ts reads it with
`typeof ... === 'string'` first, then truthiness). -/
inductive Abandon
  | no
  | yes
  | replacedBy (replacement : String)
deriving DecidableEq, Repr

/-- `PackagistVersion` (src/types.ts), restricted to the fields the selection
pipeline reads; `phpReq` models `require?.php`, the only key of the `require`
record the selector inspects. -/
structure PackagistVersion where
  version : String
  time : String
  phpReq : Option String := none
  abandoned : Abandon := .no
deriving DecidableEq, Repr

/-- `FetchResult` (src/fetcher.ts). JavaScript `undefined` is modelled as
`none` for the string-valued fields and as `false` for `deprecated` /
`phpIncompatible` (the source stores `true` or leaves them undefined).
`requirePhp` models the returned `require` record through its `php` entry. -/
structure FetchResult where
  latestVersion : String
  releaseTime : String
  phpRequirement : Option String := none
  majorVersion : Option String := none
  deprecated : Bool := false
  replacement : Option String := none
  phpIncompatible : Bool := false
  skippedVersion : Option String := none
  requirePhp : Option String := none
deriving DecidableEq, Repr

/-- Stage 1 of `fetchPackage`: versions whose classified stability level is at
least the minimum stability's level. -/
def eligibleOf (versions : List PackagistVersion) (minStability : Stability) :
    List PackagistVersion :=
  versions.filter (fun v =>
    decide (STABILITY_ORDER minStability ≤ STABILITY_ORDER (getVersionStability v.version)))

/-- The stable-only subset used by `preferStable` and by the gate re-searches. -/
def stableFilter (l : List PackagistVersion) : List PackagistVersion :=
  l.filter (fun v : PackagistVersion => decide (getVersionStability v.version = Stability.stable))

/-- The candidate pool searched by the runtime and major gates
(`versionsToCheck` in src/fetcher.ts): the stable-only subset of the eligible
versions when `preferStable`, else the whole eligible list. -/
def poolOf (versions : List PackagistVersion) (minStability : Stability)
    (preferStable : Bool) : List PackagistVersion :=
  if preferStable then stableFilter (eligibleOf versions minStability)
  else eligibleOf versions minStability

/-- Stage 2 of `fetchPackage`: the working selection after the stable-preference
step — the first stable eligible version when `preferStable` finds one, else
the first eligible version (`none` only when the eligible list is empty). -/
def workingSelection (versions : List PackagistVersion) (minStability : Stability)
    (preferStable : Bool) : Option PackagistVersion :=
  let eligible := eligibleOf versions minStability
  match (if preferStable then (stableFilter eligible).head? else none) with
  | some v => some v
  | none => eligible.head?

/-- The predicate of the runtime gate's re-search (src/fetcher.ts): an entry
passes when its `require?.php` is absent or empty (JS falsy) or the
compatibility check accepts it. -/
def phpFindPred (projectPhp : String) (v : PackagistVersion) : Bool :=
  match v.phpReq with
  | none => true
  | some r => if r = "" then true else (checkPhpCompatibility projectPhp r).satisfied

/-- Stage 3 of `fetchPackage` (the runtime-compatibility gate): given the
working selection, returns the possibly-replaced selection, the
`phpIncompatible` flag and the `skippedVersion` fact. The gate only runs when
a non-empty consumer constraint and a non-empty declared requirement are both
present (JS truthiness of `projectPhp && selectedVersion.require?.php`). -/
def phpStage (versions : List PackagistVersion) (minStability : Stability)
    (preferStable : Bool) (projectPhp : Option String) (sel0 : PackagistVersion) :
    PackagistVersion × Bool × Option String :=
  match projectPhp with
  | none => (sel0, false, none)
  | some php =>
    if php = "" then (sel0, false, none)
    else
      match sel0.phpReq with
      | none => (sel0, false, none)
      | some req =>
        if req = "" then (sel0, false, none)
        else if (checkPhpCompatibility php req).satisfied then (sel0, false, none)
        else
          match (poolOf versions minStability preferStable).find? (phpFindPred php) with
          | some c => (c, true, some sel0.version)
          | none => (sel0, true, some sel0.version)

/-- The predicate of the major gate's re-search: a comparable entry whose major
component equals the current major. -/
def sameMajorPred (currentMajor : Nat) (v : PackagistVersion) : Bool :=
  match normalizeVersionSem v.version with
  | some n => n.major == currentMajor
  | none => false

/-- Stage 4 of `fetchPackage` (the major-update gate): returns the
possibly-downgraded selection and the `majorVersion` fact. It runs only when a
non-empty current version is supplied and both it and the working selection
normalize to comparable versions. -/
def majorStage (versions : List PackagistVersion) (minStability : Stability)
    (preferStable : Bool) (currentVersion : Option String) (allowMajor : Bool)
    (sel1 : PackagistVersion) : PackagistVersion × Option String :=
  match currentVersion with
  | none => (sel1, none)
  | some cv =>
    if cv = "" then (sel1, none)
    else
      match normalizeVersionSem cv, normalizeVersionSem sel1.version with
      | some currentNorm, some selectedNorm =>
        if selectedNorm.major > currentNorm.major then
          if allowMajor then (sel1, some sel1.version)
          else
            match (poolOf versions minStability preferStable).find?
                (sameMajorPred currentNorm.major) with
            | some s => (s, some sel1.version)
            | none => (sel1, some sel1.version)
        else (sel1, none)
      | _, _ => (sel1, none)

/-- Stage 5 of `fetchPackage`: the deprecation annotation read off the final
selection's `abandoned` marker. -/
def deprecationOf : Abandon → Bool × Option String
  | .replacedBy r => (true, some r)
  | .yes => (true, none)
  | .no => (false, none)

/-- The selection pipeline of `fetchPackage` (src/fetcher.ts), from the point
where the version list has been obtained: stability filter with first-entry
fallback, stable-preference selection, runtime gate, major gate, deprecation
annotation, then assembly of the result record.  The result's
`phpRequirement` is `sel2.require?.php ?? phpRequirement`, where the inner
`phpRequirement` was captured from the selection as it stood before the major
gate. -/
def selectVersion (versions : List PackagistVersion) (minStability : Stability)
    (preferStable : Bool) (currentVersion : Option String) (allowMajor : Bool)
    (projectPhp : Option String) : Option FetchResult :=
  match versions with
  | [] => none
  | first :: _ =>
    let eligible := eligibleOf versions minStability
    if eligible.isEmpty then
      some { latestVersion := first.version, releaseTime := first.time }
    else
      match workingSelection versions minStability preferStable with
      | none => none
      | some sel0 =>
        let s3 := phpStage versions minStability preferStable projectPhp sel0
        let sel1 := s3.1
        let phpRequirement := sel1.phpReq
        let s4 := majorStage versions minStability preferStable currentVersion allowMajor sel1
        let sel2 := s4.1
        let dep := deprecationOf sel2.abandoned
        some {
          latestVersion := sel2.version
          releaseTime := sel2.time
          phpRequirement := match sel2.phpReq with | some r => some r | none => phpRequirement
          majorVersion := s4.2
          deprecated := dep.1
          replacement := dep.2
          phpIncompatible := s3.2.1
          skippedVersion := s3.2.2
          requirePhp := sel2.phpReq }

/-- The marker list of the specification's `isDevelopment` rule, written from
the spec's words (case-insensitive search for `-dev`, `alpha`, `beta`, `-rc`,
`@dev`, `@alpha`, `@beta`, `@rc`) for comparison against the source's
`hasDevSuffix` and the parser's `isDev` flag. -/
def specDevelopmentMarkers (s : String) : Bool :=
  let lower := toLowerS s
  containsS lower "-dev" || containsS lower "alpha" || containsS lower "beta" ||
    containsS lower "-rc" || containsS lower "@dev" || containsS lower "@alpha" ||
    containsS lower "@beta" || containsS lower "@rc"

theorem head?_filter_eq_find? {α : Type} (p : α → Bool) (l : List α) :
    (l.filter p).head? = l.find? p := by
  induction l with
  | nil => rfl
  | cons a t ih =>
    by_cases h : p a
    · simp [List.filter_cons, List.find?_cons, h]
    · simp [List.filter_cons, List.find?_cons, h, ih]

theorem eligible_ne_nil_of_workingSelection {versions : List PackagistVersion}
    {ms : Stability} {ps : Bool} {sel0 : PackagistVersion}
    (h : workingSelection versions ms ps = some sel0) :
    eligibleOf versions ms ≠ [] := by
  intro hE
  unfold workingSelection at h
  rw [hE] at h
  cases ps <;> simp [stableFilter] at h

theorem versions_ne_nil_of_eligible {versions : List PackagistVersion} {ms : Stability}
    (h : eligibleOf versions ms ≠ []) : versions ≠ [] := by
  intro hv
  exact h (by simp [hv, eligibleOf])

/-- Unfolding of `selectVersion` through its stages once the working selection
is known (the unreachable `null` guards collapse). -/
theorem selectVersion_eq_stages {versions : List PackagistVersion} {ms : Stability}
    {ps : Bool} {cur : Option String} {am : Bool} {php : Option String}
    {sel0 : PackagistVersion}
    (h : workingSelection versions ms ps = some sel0) :
    selectVersion versions ms ps cur am php =
      some (
        let s3 := phpStage versions ms ps php sel0
        let sel1 := s3.1
        let s4 := majorStage versions ms ps cur am sel1
        let sel2 := s4.1
        let dep := deprecationOf sel2.abandoned
        { latestVersion := sel2.version
          releaseTime := sel2.time
          phpRequirement := match sel2.phpReq with | some r => some r | none => sel1.phpReq
          majorVersion := s4.2
          deprecated := dep.1
          replacement := dep.2
          phpIncompatible := s3.2.1
          skippedVersion := s3.2.2
          requirePhp := sel2.phpReq }) := by
  have hE : eligibleOf versions ms ≠ [] := eligible_ne_nil_of_workingSelection h
  have hV : versions ≠ [] := versions_ne_nil_of_eligible hE
  obtain ⟨a, t, rfl⟩ := List.exists_cons_of_ne_nil hV
  have hEmpty : (eligibleOf (a :: t) ms).isEmpty = false := by
    cases hc : eligibleOf (a :: t) ms with
    | nil => exact absurd hc hE
    | cons x xs => rfl
  simp only [selectVersion, hEmpty, h]
  rfl


theorem checkPhp_empty_project (p : String) :
    (checkPhpCompatibility "" p).satisfied = true := by
  unfold checkPhpCompatibility
  split_ifs <;> rfl

theorem checkPhp_empty_package (p : String) :
    (checkPhpCompatibility p "").satisfied = true := by
  unfold checkPhpCompatibility
  split_ifs with h <;> first | rfl | exact absurd (Or.inl rfl) h

/-- **C1** — counterexample to the claim as stated. The claim asserts the diff
is absent whenever the candidate is lower than the current version; but for
current `2.0.0` and candidate `1.9.0` (both comparable, candidate strictly
lower in semver order) `getDiffType` reports `minor`, because the minor
component is compared only after the major comparison fails to be strict. -/
theorem getDiffType_lower_candidate_counterexample :
    normalizeVersionSem "2.0.0" = some ⟨2, 0, 0⟩ ∧
    normalizeVersionSem "1.9.0" = some ⟨1, 9, 0⟩ ∧
    semvLt ⟨1, 9, 0⟩ ⟨2, 0, 0⟩ = true ∧
    getDiffType "2.0.0" "1.9.0" = some DiffKind.minor := by decide

/-- **C1** (amended). For version strings that both normalize to comparable
bare versions, `getDiffType` returns `major` iff the candidate's major
component exceeds the current's; else `minor` iff the candidate's minor
exceeds the current's; else `patch` iff the candidate's patch exceeds the
current's; else absent — in particular absent when candidate equals current
(but a strictly lower candidate may still be classified `minor` or `patch`
when a lower-precedence component exceeds the current's). -/
theorem getDiffType_characterization (cur cand : String) (c l : SemV)
    (hc : normalizeVersionSem cur = some c) (hl : normalizeVersionSem cand = some l) :
    (getDiffType cur cand = some DiffKind.major ↔ l.major > c.major) ∧
    (getDiffType cur cand = some DiffKind.minor ↔ l.major ≤ c.major ∧ l.minor > c.minor) ∧
    (getDiffType cur cand = some DiffKind.patch ↔
      l.major ≤ c.major ∧ l.minor ≤ c.minor ∧ l.patch > c.patch) ∧
    (getDiffType cur cand = none ↔
      l.major ≤ c.major ∧ l.minor ≤ c.minor ∧ l.patch ≤ c.patch) ∧
    (l = c → getDiffType cur cand = none) := by
  have hD : getDiffType cur cand =
      (if l.major > c.major then some DiffKind.major
       else if l.minor > c.minor then some DiffKind.minor
       else if l.patch > c.patch then some DiffKind.patch else none) := by
    simp only [getDiffType, hc, hl]
  obtain ⟨cM, cm, cp⟩ := c
  obtain ⟨lM, lm, lp⟩ := l
  rw [hD]
  simp only [SemV.mk.injEq]
  split_ifs <;>
    refine ⟨?_, ?_, ?_, ?_, ?_⟩ <;> simp_all <;> omega

/-- **C1** witness: the spec's four diff examples, obtained from the
characterization theorem at concrete inputs. -/
theorem getDiffType_characterization_witness :
    getDiffType "^1.0" "2.0.0" = some DiffKind.major ∧
    getDiffType "^1.0" "1.5.0" = some DiffKind.minor ∧
    getDiffType "^1.0.0" "1.0.5" = some DiffKind.patch ∧
    getDiffType "^1.0.0" "1.0.0" = none := by
  refine ⟨?_, ?_, ?_, ?_⟩
  · exact (getDiffType_characterization "^1.0" "2.0.0" ⟨1, 0, 0⟩ ⟨2, 0, 0⟩
      (by decide) (by decide)).1.mpr (by decide)
  · exact (getDiffType_characterization "^1.0" "1.5.0" ⟨1, 0, 0⟩ ⟨1, 5, 0⟩
      (by decide) (by decide)).2.1.mpr (by decide)
  · exact (getDiffType_characterization "^1.0.0" "1.0.5" ⟨1, 0, 0⟩ ⟨1, 0, 5⟩
      (by decide) (by decide)).2.2.1.mpr (by decide)
  · exact (getDiffType_characterization "^1.0.0" "1.0.0" ⟨1, 0, 0⟩ ⟨1, 0, 0⟩
      (by decide) (by decide)).2.2.2.2 rfl

/-- **C6**. `checkPhpCompatibility` is satisfied whenever the package
requirement is empty or `*`, whenever the consumer constraint is empty, or
whenever no minimum version can be resolved from the consumer constraint
(fail open); and whenever it is unsatisfied, the result carries a reason
naming the package's required constraint. -/
theorem checkPhpCompatibility_fail_open_and_reason (projectPhp packagePhp : String) :
    ((packagePhp = "" ∨ packagePhp = "*" ∨ projectPhp = "" ∨
        extractMinVersion projectPhp = none) →
      (checkPhpCompatibility projectPhp packagePhp).satisfied = true) ∧
    ((checkPhpCompatibility projectPhp packagePhp).satisfied = false →
      (checkPhpCompatibility projectPhp packagePhp).reason =
        some ("requires php " ++ packagePhp)) := by
  have hmin : extractMinVersion projectPhp = none ↔ extractMinVersionSem projectPhp = none := by
    unfold extractMinVersion
    cases extractMinVersionSem projectPhp <;> simp
  constructor
  · intro h
    unfold checkPhpCompatibility
    split_ifs with h1 h2
    · rfl
    · rfl
    · have hm : extractMinVersionSem projectPhp = none := by
        rcases h with h | h | h | h
        · exact absurd (Or.inl h) h1
        · exact absurd (Or.inr h) h1
        · exact absurd h h2
        · exact hmin.mp h
      rw [hm]
  · have hcases : checkPhpCompatibility projectPhp packagePhp = { satisfied := true } ∨
        checkPhpCompatibility projectPhp packagePhp =
          { satisfied := false, reason := some ("requires php " ++ packagePhp) } := by
      unfold checkPhpCompatibility
      split_ifs
      · exact Or.inl rfl
      · exact Or.inl rfl
      · cases hm : extractMinVersionSem projectPhp
        · exact Or.inl rfl
        · dsimp only
          split_ifs
          · exact Or.inl rfl
          · exact Or.inr rfl
    intro hfalse
    rcases hcases with h | h
    · rw [h] at hfalse
      simp at hfalse
    · rw [h]

/-- **C6** witness: each fail-open condition discharged at a concrete input,
plus a concrete unsatisfied check carrying its reason. -/
theorem checkPhpCompatibility_fail_open_witness :
    (checkPhpCompatibility "^8.0" "").satisfied = true ∧
    (checkPhpCompatibility "^8.0" "*").satisfied = true ∧
    (checkPhpCompatibility "" "^8.0").satisfied = true ∧
    (checkPhpCompatibility "dev-main" "^8.0").satisfied = true ∧
    (checkPhpCompatibility "8.0.0" "^8.1").reason = some ("requires php " ++ "^8.1") := by
  refine ⟨?_, ?_, ?_, ?_, ?_⟩
  · exact (checkPhpCompatibility_fail_open_and_reason "^8.0" "").1 (Or.inl rfl)
  · exact (checkPhpCompatibility_fail_open_and_reason "^8.0" "*").1 (Or.inr (Or.inl rfl))
  · exact (checkPhpCompatibility_fail_open_and_reason "" "^8.0").1 (Or.inr (Or.inr (Or.inl rfl)))
  · exact (checkPhpCompatibility_fail_open_and_reason "dev-main" "^8.0").1
      (Or.inr (Or.inr (Or.inr (by decide))))
  · exact (checkPhpCompatibility_fail_open_and_reason "8.0.0" "^8.1").2 (by decide)

/-- **C4**. When the stability-filtered set is non-empty, the selected version
is the first eligible entry classified exactly `stable` when `preferStable`
finds one, else the first eligible entry, in input list order (stated
end-to-end with both gates off, so the working selection is the result). -/
theorem stable_preference_selection (versions : List PackagistVersion) (ms : Stability)
    (ps : Bool) (e0 : PackagistVersion)
    (h : (eligibleOf versions ms).head? = some e0) :
    ∃ r, selectVersion versions ms ps none true none = some r ∧
      r.latestVersion =
        (match (if ps then (eligibleOf versions ms).find?
              (fun v : PackagistVersion => decide (getVersionStability v.version = Stability.stable))
            else none) with
         | some s => s
         | none => e0).version := by
  have hw : workingSelection versions ms ps =
      some (match (if ps then (eligibleOf versions ms).find?
              (fun v : PackagistVersion => decide (getVersionStability v.version = Stability.stable))
            else none) with
        | some s => s
        | none => e0) := by
    unfold workingSelection stableFilter
    simp only [head?_filter_eq_find?]
    cases hf : (if ps then (eligibleOf versions ms).find?
        (fun v : PackagistVersion => decide (getVersionStability v.version = Stability.stable)) else none) with
    | some s => rfl
    | none => exact h
  refine ⟨_, selectVersion_eq_stages hw, ?_⟩
  simp only [phpStage, majorStage]

/-- **C4** witness: `["2.0.0-beta", "1.5.0"]` (descending) with minimum
stability `beta` selects `1.5.0` when `preferStable` and `2.0.0-beta`
otherwise. -/
theorem stable_preference_selection_witness :
    (∃ r, selectVersion
        [⟨"2.0.0-beta", "t1", none, .no⟩, ⟨"1.5.0", "t2", none, .no⟩]
        Stability.beta true none true none = some r ∧ r.latestVersion = "1.5.0") ∧
    (∃ r, selectVersion
        [⟨"2.0.0-beta", "t1", none, .no⟩, ⟨"1.5.0", "t2", none, .no⟩]
        Stability.beta false none true none = some r ∧ r.latestVersion = "2.0.0-beta") := by
  constructor
  · obtain ⟨r, hr, hl⟩ := stable_preference_selection
      [⟨"2.0.0-beta", "t1", none, .no⟩, ⟨"1.5.0", "t2", none, .no⟩]
      Stability.beta true ⟨"2.0.0-beta", "t1", none, .no⟩ (by decide)
    exact ⟨r, hr, by rw [hl]; decide⟩
  · obtain ⟨r, hr, hl⟩ := stable_preference_selection
      [⟨"2.0.0-beta", "t1", none, .no⟩, ⟨"1.5.0", "t2", none, .no⟩]
      Stability.beta false ⟨"2.0.0-beta", "t1", none, .no⟩ (by decide)
    exact ⟨r, hr, by rw [hl]; decide⟩

/-- **C5**. When no entry meets the minimum-stability bar, the selector falls
back to the first entry of the original unfiltered list, and the fallback
result carries only that entry's version and release timestamp — every other
field of the result is absent. -/
theorem dev_fallback_bare_result (versions : List PackagistVersion) (ms : Stability)
    (ps : Bool) (cur : Option String) (am : Bool) (php : Option String)
    (v0 : PackagistVersion) (t : List PackagistVersion)
    (hv : versions = v0 :: t) (he : eligibleOf versions ms = []) :
    selectVersion versions ms ps cur am php =
      some ⟨v0.version, v0.time, none, none, false, none, false, none, none⟩ := by
  subst hv
  have hE : (eligibleOf (v0 :: t) ms).isEmpty = true := by rw [he]; rfl
  simp only [selectVersion, hE]
  rfl

/-- **C5** witness: all-development candidates `["dev-main", "dev-develop"]`
under minimum stability `stable` fall back to `dev-main` with a bare result. -/
theorem dev_fallback_bare_result_witness :
    selectVersion [⟨"dev-main", "t1", none, .no⟩, ⟨"dev-develop", "t2", none, .no⟩]
        Stability.stable true none true none =
      some ⟨"dev-main", "t1", none, none, false, none, false, none, none⟩ :=
  dev_fallback_bare_result _ Stability.stable true none true none
    ⟨"dev-main", "t1", none, .no⟩ [⟨"dev-develop", "t2", none, .no⟩] rfl (by decide)

/-- **C2**. When a consumer runtime constraint is supplied, the working
selection declares a runtime requirement the compatibility check rejects, and
the candidate pool (stable-only entries if `preferStable`, else the whole
stability-filtered set) contains, in list order, a first entry whose own
requirement is absent or accepted, the selector records
`phpIncompatible = true` and `skippedVersion = ` the rejected selection's
version and returns that first acceptable entry (stated with the major gate
off, so the replaced working selection is the result). -/
theorem runtime_gate_replacement (versions : List PackagistVersion) (ms : Stability)
    (ps : Bool) (php req : String) (sel0 c : PackagistVersion)
    (hw : workingSelection versions ms ps = some sel0)
    (hreq : sel0.phpReq = some req)
    (hsat : (checkPhpCompatibility php req).satisfied = false)
    (hfind : (poolOf versions ms ps).find? (phpFindPred php) = some c) :
    ∃ r, selectVersion versions ms ps none true (some php) = some r ∧
      r.phpIncompatible = true ∧ r.skippedVersion = some sel0.version ∧
      r.latestVersion = c.version := by
  have hphp : ¬ php = "" := by
    intro h
    simp [h, checkPhp_empty_project] at hsat
  have hreqne : ¬ req = "" := by
    intro h
    rw [h] at hsat
    simp [checkPhp_empty_package] at hsat
  have hstage : phpStage versions ms ps (some php) sel0 = (c, true, some sel0.version) := by
    simp [phpStage, hreq, hsat, hfind, hphp, hreqne]
  refine ⟨_, selectVersion_eq_stages hw, ?_, ?_, ?_⟩ <;> simp [hstage, majorStage]

/-- **C2** witness: the spec's end-to-end runtime-gate example — candidates
`2.0.0` (php `^8.1`), `1.5.0` (php `^8.0`), `1.0.0` (php `^7.4`) with consumer
runtime `8.0.0` select `1.5.0` with `phpIncompatible` and skipped `2.0.0`. -/
theorem runtime_gate_replacement_witness :
    ∃ r, selectVersion
        [⟨"2.0.0", "t1", some "^8.1", .no⟩, ⟨"1.5.0", "t2", some "^8.0", .no⟩,
         ⟨"1.0.0", "t3", some "^7.4", .no⟩]
        Stability.stable true none true (some "8.0.0") = some r ∧
      r.phpIncompatible = true ∧ r.skippedVersion = some "2.0.0" ∧
      r.latestVersion = "1.5.0" := by
  obtain ⟨r, h1, h2, h3, h4⟩ := runtime_gate_replacement
    [⟨"2.0.0", "t1", some "^8.1", .no⟩, ⟨"1.5.0", "t2", some "^8.0", .no⟩,
     ⟨"1.0.0", "t3", some "^7.4", .no⟩]
    Stability.stable true "8.0.0" "^8.1"
    ⟨"2.0.0", "t1", some "^8.1", .no⟩ ⟨"1.5.0", "t2", some "^8.0", .no⟩
    (by decide) (by decide) (by decide) (by decide)
  exact ⟨r, h1, h2, h3, h4⟩

/-- **C10**. When the runtime gate rejects the working selection and no entry
of the candidate pool has an absent or acceptable runtime requirement, the
selector keeps and returns the incompatible working selection itself, still
recording `phpIncompatible = true` and `skippedVersion` equal to that same
version string. -/
theorem runtime_gate_keeps_incompatible (versions : List PackagistVersion) (ms : Stability)
    (ps : Bool) (php req : String) (sel0 : PackagistVersion)
    (hw : workingSelection versions ms ps = some sel0)
    (hreq : sel0.phpReq = some req)
    (hsat : (checkPhpCompatibility php req).satisfied = false)
    (hfind : (poolOf versions ms ps).find? (phpFindPred php) = none) :
    ∃ r, selectVersion versions ms ps none true (some php) = some r ∧
      r.latestVersion = sel0.version ∧ r.phpIncompatible = true ∧
      r.skippedVersion = some sel0.version := by
  have hphp : ¬ php = "" := by
    intro h
    simp [h, checkPhp_empty_project] at hsat
  have hreqne : ¬ req = "" := by
    intro h
    rw [h] at hsat
    simp [checkPhp_empty_package] at hsat
  have hstage : phpStage versions ms ps (some php) sel0 = (sel0, true, some sel0.version) := by
    simp [phpStage, hreq, hsat, hfind, hphp, hreqne]
  refine ⟨_, selectVersion_eq_stages hw, ?_, ?_, ?_⟩ <;> simp [hstage, majorStage]

/-- **C10** witness: a single candidate requiring php `^8.1` against consumer
runtime `8.0.0` is kept despite being incompatible, with both facts recorded. -/
theorem runtime_gate_keeps_incompatible_witness :
    ∃ r, selectVersion [⟨"2.0.0", "t1", some "^8.1", .no⟩]
        Stability.stable true none true (some "8.0.0") = some r ∧
      r.latestVersion = "2.0.0" ∧ r.phpIncompatible = true ∧
      r.skippedVersion = some "2.0.0" := by
  obtain ⟨r, h1, h2, h3, h4⟩ := runtime_gate_keeps_incompatible
    [⟨"2.0.0", "t1", some "^8.1", .no⟩] Stability.stable true "8.0.0" "^8.1"
    ⟨"2.0.0", "t1", some "^8.1", .no⟩
    (by decide) (by decide) (by decide) (by decide)
  exact ⟨r, h1, h2, h3, h4⟩

/-- **C3**. When a current version is supplied, both it and the working
selection normalize to comparable bare versions, and the working selection's
major component exceeds the current's, the result records
`majorVersion = ` the working selection's version; and the returned selection
is the working selection itself when major updates are allowed, else the first
pool entry whose major equals the current major when one exists (the working
selection otherwise). Stated with the runtime gate off, so the stage-2
selection is the working selection the gate sees. -/
theorem major_gate_detection_and_downgrade (versions : List PackagistVersion)
    (ms : Stability) (ps : Bool) (cv : String) (am : Bool) (cn sn : SemV)
    (sel0 : PackagistVersion)
    (hw : workingSelection versions ms ps = some sel0)
    (hcn : normalizeVersionSem cv = some cn)
    (hsn : normalizeVersionSem sel0.version = some sn)
    (hmaj : sn.major > cn.major) :
    ∃ r, selectVersion versions ms ps (some cv) am none = some r ∧
      r.majorVersion = some sel0.version ∧
      r.latestVersion =
        (if am then sel0
         else ((poolOf versions ms ps).find? (sameMajorPred cn.major)).getD sel0).version := by
  have hcv : ¬ cv = "" := by
    intro h
    rw [h] at hcn
    rw [(by decide : normalizeVersionSem "" = none)] at hcn
    exact Option.noConfusion hcn
  have hstage4 : majorStage versions ms ps (some cv) am sel0 =
      ((if am then sel0
        else ((poolOf versions ms ps).find? (sameMajorPred cn.major)).getD sel0),
       some sel0.version) := by
    simp only [majorStage, hcn, hsn, hcv, if_false, ite_false]
    rw [if_pos hmaj]
    cases am
    · simp only [Bool.false_eq_true, if_false, ite_false]
      cases hf : (poolOf versions ms ps).find? (sameMajorPred cn.major) <;> simp [hf]
    · simp
  refine ⟨_, selectVersion_eq_stages hw, ?_, ?_⟩ <;>
    simp [phpStage, hstage4]

/-- **C3** witness: the spec's major-gate example — current `^1.0`, candidates
`["2.0.0", "1.5.0"]`, major updates disallowed — selects `1.5.0` and records
`majorVersion = "2.0.0"`. -/
theorem major_gate_detection_witness :
    ∃ r, selectVersion [⟨"2.0.0", "t1", none, .no⟩, ⟨"1.5.0", "t2", none, .no⟩]
        Stability.stable true (some "^1.0") false none = some r ∧
      r.majorVersion = some "2.0.0" ∧ r.latestVersion = "1.5.0" := by
  obtain ⟨r, h1, h2, h3⟩ := major_gate_detection_and_downgrade
    [⟨"2.0.0", "t1", none, .no⟩, ⟨"1.5.0", "t2", none, .no⟩]
    Stability.stable true "^1.0" false ⟨1, 0, 0⟩ ⟨2, 0, 0⟩ ⟨"2.0.0", "t1", none, .no⟩
    (by decide) (by decide) (by decide) (by decide)
  refine ⟨r, h1, h2, ?_⟩
  rw [h3]
  decide

/-- **C7** — counterexample to the claim as stated. The claim asserts
`isDevelopment` holds iff one of the textual markers occurs, regardless of the
detected kind and in particular for wildcard constraints; but
`"1.0.0-beta.*"` parses as a wildcard, contains the `beta` marker, and still
has `isDev = false` (the wildcard branch of `parseConstraint` hard-codes
`isDev: false`); likewise `"dev-main"` is a branch-prefix constraint with no
marker yet `isDev = true`. -/
theorem parseConstraint_isDev_counterexample :
    (parseConstraint "1.0.0-beta.*").type = ConstraintType.wildcard ∧
    specDevelopmentMarkers "1.0.0-beta.*" = true ∧
    (parseConstraint "1.0.0-beta.*").isDev = false ∧
    (parseConstraint "dev-main").type = ConstraintType.dev ∧
    specDevelopmentMarkers "dev-main" = false ∧
    (parseConstraint "dev-main").isDev = true := by decide

set_option maxHeartbeats 1000000 in
/-- **C7** (amended). The parsed `isDev` flag is determined per kind:
alias/branch/dev-suffix constraints (kind `dev`) set it unconditionally;
wildcard and hyphen-range constraints always clear it; caret and tilde
constraints apply the marker test to the remainder after the operator; range
constraints apply it to the extracted numeric version only; exact constraints
apply it to the whole trimmed string. The source's marker test `hasDevSuffix`
coincides with the spec's marker list. -/
theorem parseConstraint_isDev_characterization (s : String) :
    ((parseConstraint s).type = ConstraintType.dev → (parseConstraint s).isDev = true) ∧
    ((parseConstraint s).type = ConstraintType.wildcard ∨
        (parseConstraint s).type = ConstraintType.hyphen →
      (parseConstraint s).isDev = false) ∧
    ((parseConstraint s).type = ConstraintType.caret ∨
        (parseConstraint s).type = ConstraintType.tilde →
      (parseConstraint s).isDev = hasDevSuffix (dropS 1 (trimS s))) ∧
    ((parseConstraint s).type = ConstraintType.range →
      (parseConstraint s).isDev = hasDevSuffix (rangeVersionOf (trimS s))) ∧
    ((parseConstraint s).type = ConstraintType.exact →
      (parseConstraint s).isDev = hasDevSuffix (trimS s)) ∧
    hasDevSuffix s = specDevelopmentMarkers s := by
  refine ⟨?_, ?_, ?_, ?_, ?_, rfl⟩ <;>
    · unfold parseConstraint
      generalize trimS s = o
      unfold parseConstraintCore
      split_ifs <;> simp_all

/-- **C7** witness: the per-kind clauses instantiated at concrete constraints
of each kind. -/
theorem parseConstraint_isDev_characterization_witness :
    (parseConstraint "dev-main").isDev = true ∧
    (parseConstraint "1.*").isDev = false ∧
    (parseConstraint "^1.0.0-beta").isDev = hasDevSuffix (dropS 1 (trimS "^1.0.0-beta")) ∧
    (parseConstraint ">=1.0@beta").isDev = hasDevSuffix (rangeVersionOf (trimS ">=1.0@beta")) ∧
    (parseConstraint "1.0.0-RC1").isDev = hasDevSuffix (trimS "1.0.0-RC1") := by
  refine ⟨?_, ?_, ?_, ?_, ?_⟩
  · exact (parseConstraint_isDev_characterization "dev-main").1 (by decide)
  · exact (parseConstraint_isDev_characterization "1.*").2.1 (Or.inl (by decide))
  · exact (parseConstraint_isDev_characterization "^1.0.0-beta").2.2.1 (Or.inl (by decide))
  · exact (parseConstraint_isDev_characterization ">=1.0@beta").2.2.2.1 (by decide)
  · exact (parseConstraint_isDev_characterization "1.0.0-RC1").2.2.2.2.1 (by decide)

/-- **C8** — counterexample to the claim as stated. `parseConstraint` trims
the raw input before storing it, so for an input with surrounding whitespace
the `original` field is not the verbatim input. -/
theorem parseConstraint_original_counterexample :
    ¬ (parseConstraint " ^1.0 ").original = " ^1.0 " ∧
    (parseConstraint " ^1.0 ").original = "^1.0" := by decide

/-- **C8** (amended). `parseConstraint` stores the whitespace-trimmed input in
`original` — hence the verbatim input whenever it carries no surrounding
whitespace — and reformatting derives its output from the original constraint
string plus the new bare version: in particular a constraint whose detected
kind is `dev` is passed through `formatNewVersion` unchanged, never
re-serialized from the parsed representation. -/
theorem parseConstraint_original_trimmed (s v : String) :
    (parseConstraint s).original = trimS s ∧
    (trimS s = s → (parseConstraint s).original = s) ∧
    ((parseConstraint s).type = ConstraintType.dev → formatNewVersion s v = s) := by
  have h1 : (parseConstraint s).original = trimS s := by
    unfold parseConstraint
    generalize trimS s = o
    unfold parseConstraintCore
    split_ifs <;> rfl
  refine ⟨h1, fun h => by rw [h1, h], fun h => ?_⟩
  unfold formatNewVersion
  rw [h]

/-- **C8** witness: a trimmed input is stored verbatim and a dev constraint is
passed through reformatting unchanged. -/
theorem parseConstraint_original_trimmed_witness :
    (parseConstraint "^1.0").original = trimS "^1.0" ∧
    (parseConstraint "^1.0").original = "^1.0" ∧
    formatNewVersion "dev-main" "2.0.0" = "dev-main" :=
  ⟨(parseConstraint_original_trimmed "^1.0" "2.0.0").1,
   (parseConstraint_original_trimmed "^1.0" "2.0.0").2.1 (by decide),
   (parseConstraint_original_trimmed "dev-main" "2.0.0").2.2 (by decide)⟩

/-- **C9**. For caret, tilde and exact constraints, reformatting yields exactly
the original's operator token followed by the new bare version stripped of a
leading `v`/`V`: the result starts with the original's detected operator and
ends with the cleaned new version. -/
theorem formatNewVersion_style_preservation (c v : String)
    (h : (parseConstraint c).type = ConstraintType.caret ∨
         (parseConstraint c).type = ConstraintType.tilde ∨
         (parseConstraint c).type = ConstraintType.exact) :
    formatNewVersion c v = (parseConstraint c).pfx ++ stripLeadingV v := by
  unfold formatNewVersion
  rcases h with h | h | h <;> rw [h]

/-- **C9** witness: concrete caret, tilde and exact reformat examples,
including a `v`-prefixed new version. -/
theorem formatNewVersion_style_preservation_witness :
    formatNewVersion "^1.0" "v1.5.0" = "^1.5.0" ∧
    formatNewVersion "~1.2" "1.3.0" = "~1.3.0" ∧
    formatNewVersion "1.2.3" "2.0.0" = "2.0.0" := by
  refine ⟨?_, ?_, ?_⟩
  · rw [formatNewVersion_style_preservation "^1.0" "v1.5.0" (Or.inl (by decide))]
    decide
  · rw [formatNewVersion_style_preservation "~1.2" "1.3.0" (Or.inr (Or.inl (by decide)))]
    decide
  · rw [formatNewVersion_style_preservation "1.2.3" "2.0.0" (Or.inr (Or.inr (by decide)))]
    decide
